import Mathlib

/-!
Shallow embedding of the data layer of `src/data.js` (the `DataService`
object of the casa-arboledas-reporting dashboard), together with theorems
checking the natural-language specification against it.

Conventions of the embedding:
* JavaScript numbers are modelled as exact rationals (`ℚ`); the claims under
  check concern decimal parsing and commutative sums, where double rounding
  plays no role.  Nonfinite values (`Infinity`, `NaN`) are modelled through
  `Option ℚ` where the source tests `isNaN`.
* JavaScript strings are Lean `String`s; host string primitives used by the
  source (`trim`, `toLowerCase`, `startsWith`, `split('/')`) are embedded as
  explicit functions over `String.data` so that every definition is
  kernel-evaluable.
* A cell read `row[i]` that may be `undefined` is modelled as
  `row.getD i ""`: every consumer in the source pipes such a cell through
  `||`-defaulting or `parseNumber`, for which `undefined` and `""` behave
  identically (`!str` is true for both).
* The host generic date parser `new Date(string)` is not repository code; it
  is passed as an explicit parameter `gen : String → Option LocalDate`
  (`none` = invalid date).
-/

-- The kernel evaluates rational arithmetic in the concrete test cases below;
-- the batteries definitions are sealed against unfolding by default.
unseal Rat.add Rat.mul Rat.inv Rat.ofScientific Rat.sub

/-- JS whitespace class (`\s`) restricted to the ASCII characters that can
occur here: space, tab, newline, carriage return, form feed, vertical tab. -/
def jsWhitespaceChar (c : Char) : Bool :=
  c == ' ' || c == '\t' || c == '\n' || c == '\r' || c == '\x0b' || c == '\x0c'

/-- `String.prototype.trim`, over a character list. -/
def trimChars (cs : List Char) : List Char :=
  ((cs.dropWhile jsWhitespaceChar).reverse.dropWhile jsWhitespaceChar).reverse

/-- `String.prototype.trim`. -/
def jsTrim (s : String) : String := ⟨trimChars s.data⟩

/-- `String.prototype.toLowerCase` (ASCII range, as exercised here). -/
def toLowerJS (s : String) : String := ⟨s.data.map Char.toLower⟩

/-- `s.startsWith(p)`. -/
def startsWithJS (s p : String) : Bool := p.data.isPrefixOf s.data

/-- Decimal value of a digit run (JS number building). -/
def digitsVal (ds : List Char) : ℕ :=
  ds.foldl (fun a c => 10 * a + (c.toNat - 48)) 0

/-- Exponent part of `parseFloat`: optional sign then digits; an `e` not
followed by digits contributes nothing (exponent 0). -/
def parseFloatExp (cs : List Char) : Int :=
  let esign : Int := match cs with
    | '-' :: _ => -1
    | _ => 1
  let cs1 : List Char := match cs with
    | '-' :: rest => rest
    | '+' :: rest => rest
    | _ => cs
  let ds := cs1.takeWhile Char.isDigit
  if ds.isEmpty then 0 else esign * (digitsVal ds : Int)

/-- Host `parseFloat`: skip leading whitespace, optional sign, digit run,
optional fraction, optional exponent; the longest valid numeric prefix is
taken and trailing garbage ignored; `none` models `NaN` (no mantissa digit).
The nonfinite literal `Infinity` is outside the inputs modelled here. -/
def parseFloatQ (cs0 : List Char) : Option ℚ :=
  let cs := cs0.dropWhile jsWhitespaceChar
  let sign : ℚ := match cs with
    | '-' :: _ => -1
    | _ => 1
  let cs1 : List Char := match cs with
    | '-' :: rest => rest
    | '+' :: rest => rest
    | _ => cs
  let intPart := cs1.takeWhile Char.isDigit
  let cs2 := cs1.dropWhile Char.isDigit
  let fracPart : List Char := match cs2 with
    | '.' :: rest => rest.takeWhile Char.isDigit
    | _ => []
  let cs3 : List Char := match cs2 with
    | '.' :: rest => rest.dropWhile Char.isDigit
    | _ => cs2
  if intPart.isEmpty && fracPart.isEmpty then none
  else
    let mantissa : ℚ :=
      (digitsVal intPart : ℚ) + (digitsVal fracPart : ℚ) / (10 : ℚ) ^ fracPart.length
    let expVal : Int := match cs3 with
      | 'e' :: rest => parseFloatExp rest
      | 'E' :: rest => parseFloatExp rest
      | _ => 0
    let base : ℚ := sign * mantissa
    some (if 0 ≤ expVal then base * (10 : ℚ) ^ expVal.toNat
          else base / (10 : ℚ) ^ (-expVal).toNat)

/-- Host `parseInt(s, 10)`: skip leading whitespace, optional sign, longest
decimal digit prefix; `none` models `NaN`. -/
def parseIntJS (s : String) : Option Int :=
  let cs := s.data.dropWhile jsWhitespaceChar
  let sign : Int := match cs with
    | '-' :: _ => -1
    | _ => 1
  let cs1 : List Char := match cs with
    | '-' :: rest => rest
    | '+' :: rest => rest
    | _ => cs
  let ds := cs1.takeWhile Char.isDigit
  if ds.isEmpty then none else some (sign * (digitsVal ds : Int))

/-- The character class removed by `parseNumber`:
`String(str).replace(/[$\s,MXN]/gi, '')`. -/
def currencyStripChar (c : Char) : Bool :=
  c == '$' || jsWhitespaceChar c || c == ',' ||
    c == 'M' || c == 'X' || c == 'N' || c == 'm' || c == 'x' || c == 'n'

/-- `DataService.parseNumber` (src/data.js lines 69-76). -/
def parseNumber (str : String) : ℚ :=
  if str = "" then 0
  else
    let cleaned := jsTrim ⟨str.data.filter (fun c => !currencyStripChar c)⟩
    if cleaned = "" ∨ cleaned = "-" then 0
    else (parseFloatQ cleaned.data).getD 0

/-- `DataService.parsePercent` (src/data.js lines 81-86). -/
def parsePercent (str : String) : ℚ :=
  if str = "" then 0
  else
    let cleaned := jsTrim ⟨str.data.filter (fun c => !(c == '%' || jsWhitespaceChar c))⟩
    (parseFloatQ cleaned.data).getD 0

/-- The character-level loop of `DataService.parseCSV` (src/data.js lines
15-63).  State: remaining input, `inQuotes` flag, accumulated field,
accumulated row, accumulated rows.  The source pushes the trimmed field on
field/row boundaries; a row terminated by a newline is always pushed (the
`currentRow.length > 0` test follows a push, so it is always true), while at
end-of-input the final field/row pair is pushed only when one of them is
non-empty. -/
def csvLoop : List Char → Bool → List Char → List (List Char) →
    List (List (List Char)) → List (List (List Char))
  | [], _, field, row, rows =>
      if field.isEmpty && row.isEmpty then rows
      else rows ++ [row ++ [trimChars field]]
  | '"' :: '"' :: rest, true, field, row, rows =>
      csvLoop rest true (field ++ ['"']) row rows
  | '"' :: rest, true, field, row, rows =>
      csvLoop rest false field row rows
  | c :: rest, true, field, row, rows =>
      csvLoop rest true (field ++ [c]) row rows
  | '"' :: rest, false, field, row, rows =>
      csvLoop rest true field row rows
  | ',' :: rest, false, field, row, rows =>
      csvLoop rest false [] (row ++ [trimChars field]) rows
  | '\n' :: rest, false, field, row, rows =>
      csvLoop rest false [] [] (rows ++ [row ++ [trimChars field]])
  | '\r' :: '\n' :: rest, false, field, row, rows =>
      csvLoop rest false [] [] (rows ++ [row ++ [trimChars field]])
  | c :: rest, false, field, row, rows =>
      csvLoop rest false (field ++ [c]) row rows

/-- `DataService.parseCSV` (src/data.js lines 15-63). -/
def parseCSV (csvText : String) : List (List String) :=
  (csvLoop csvText.data false [] [] []).map (fun r => r.map (fun f => ⟨f⟩))

/-- The value constructed by `new Date(year, monthIndex, day)` in local time.
Constructor arguments are stored as given; the claims under check never
construct out-of-range arguments, so calendar rollover is not modelled. -/
structure LocalDate where
  year : Int
  monthIndex : Int
  day : Int
deriving DecidableEq

/-- Worker for `splitSlash`: accumulate the current piece (reversed). -/
def splitSlashAux : List Char → List Char → List String
  | [], acc => [⟨acc.reverse⟩]
  | c :: rest, acc =>
    if c = '/' then ⟨acc.reverse⟩ :: splitSlashAux rest []
    else splitSlashAux rest (c :: acc)

/-- Host `str.split('/')`: split at every slash, empty pieces kept, the empty
string yielding one empty piece. -/
def splitSlash (s : String) : List String := splitSlashAux s.data []

/-- The slash-shape branch of `DataService.parseDate`: split on `/`, require
exactly three parts, `parseInt(_, 10)` each of them. -/
def slashDateParts (s : String) : Option (Int × Int × Int) :=
  let parts := splitSlash s
  if parts.length = 3 then
    match parseIntJS (parts.getD 0 ""), parseIntJS (parts.getD 1 ""),
        parseIntJS (parts.getD 2 "") with
    | some m, some d, some y => some (m, d, y)
    | _, _, _ => none
  else none

/-- `DataService.parseDate` (src/data.js lines 284-299), parameterised by the
host generic date parser `gen` standing for `new Date(string)` (with `none`
for an invalid date). -/
def parseDate (gen : String → Option LocalDate) (str : String) :
    Option LocalDate :=
  if str = "" then none
  else
    match slashDateParts str with
    | some (m, d, y) => some ⟨y, m - 1, d⟩
    | none => gen str

/-- An `Expense` record as built by `parseExpenses`. -/
structure Expense where
  date : String
  dateObj : Option LocalDate
  category : String
  subcategory : String
  amount : ℚ
deriving DecidableEq

/-- The body of the row loop of `DataService.parseExpenses` (src/data.js lines
256-279), over the rows after the header: skip rows shorter than 5 cells,
coerce the cells, skip rows with neither category nor amount. -/
def expensesLoop (gen : String → Option LocalDate) :
    List (List String) → List Expense
  | [] => []
  | row :: rest =>
    if row.length < 5 then expensesLoop gen rest
    else
      let dateStr := jsTrim (row.getD 0 "")
      let category := jsTrim (row.getD 1 "")
      let subcategory := jsTrim (row.getD 2 "")
      let amount := parseNumber (row.getD 4 "")
      if category = "" ∧ amount = 0 then expensesLoop gen rest
      else ⟨dateStr, parseDate gen dateStr, category, subcategory, amount⟩ ::
        expensesLoop gen rest

/-- `DataService.parseExpenses` (src/data.js lines 256-279): header row at
index 0 is skipped. -/
def parseExpenses (gen : String → Option LocalDate) (rows : List (List String)) :
    List Expense :=
  expensesLoop gen (rows.drop 1)

/-- `DataService.normalizeCategory` (src/data.js lines 380-387). -/
def normalizeCategory (cat : String) : String :=
  if cat = "" then ""
  else
    let lower := toLowerJS (jsTrim cat)
    if startsWithJS lower "hard" then "Hard Cost"
    else if startsWithJS lower "soft" then "Soft Cost"
    else if startsWithJS lower "terreno" then "Terreno"
    else jsTrim cat

/-- A JS object used as a string-keyed number map, in insertion order. -/
abbrev QMap := List (String × ℚ)

/-- The `if (!m[k]) m[k] = 0; m[k] += v` idiom of the aggregator: add `v` at
the first occurrence of key `k`, or append the key with value `v`.  (When the
stored value is falsy `0`, the source resets it to `0` and adds, which agrees
with adding at the existing entry.) -/
def bump : QMap → String → ℚ → QMap
  | [], k, v => [(k, v)]
  | (k0, v0) :: rest, k, v =>
    if k0 = k then (k0, v0 + v) :: rest else (k0, v0) :: bump rest k v

/-- Reading `m[k]`, with a missing key as the implicit `0` of the aggregator. -/
def lookupD : QMap → String → ℚ
  | [], _ => 0
  | (k0, v0) :: rest, k => if k0 = k then v0 else lookupD rest k

/-- The summary object built by `calculateExpenseSummary`. -/
structure ExpenseSummary where
  total : ℚ
  byCategory : QMap
  bySubcategory : QMap
deriving DecidableEq

/-- One iteration of the loop of `calculateExpenseSummary` (src/data.js lines
396-410). -/
def expenseStep (s : ExpenseSummary) (exp : Expense) : ExpenseSummary :=
  let catKey := normalizeCategory exp.category
  let subKey := catKey ++ "|" ++ exp.subcategory
  { total := s.total + exp.amount
    byCategory := bump s.byCategory catKey exp.amount
    bySubcategory := bump s.bySubcategory subKey exp.amount }

/-- `DataService.calculateExpenseSummary` (src/data.js lines 389-413). -/
def calculateExpenseSummary (expenses : List Expense) : ExpenseSummary :=
  expenses.foldl expenseStep ⟨0, [], []⟩

/-- A house row of the BUDGET sheet. -/
structure House where
  name : String
  sqm : ℚ
  pricePerSqm : ℚ
  totalCommercial : ℚ
  netIncome : ℚ
deriving DecidableEq

/-- A named line item (soft cost / terreno breakdown). -/
structure NamedAmount where
  name : String
  amount : ℚ
deriving DecidableEq

/-- `data.hardCosts` of `parseBudget`; a key never assigned is `none`. -/
structure HardCosts where
  total : Option ℚ
  construction : Option ℚ
deriving DecidableEq

/-- `data.softCosts` / `data.terreno` of `parseBudget`. -/
structure CostSection where
  items : List NamedAmount
  total : Option ℚ
deriving DecidableEq

/-- The structure returned by `parseBudget`. -/
structure BudgetData where
  houses : List House
  hardCosts : HardCosts
  softCosts : CostSection
  terreno : CostSection
deriving DecidableEq

/-- The label matcher used by `findRow` in `parseBudget` (src/data.js line 181):
column B non-empty and, trimmed and lowercased, starting with the lowercased
label. -/
def labelMatches (label : String) (r : List String) : Bool :=
  let cell := r.getD 1 ""
  !(cell == "") && startsWithJS (toLowerJS (jsTrim cell)) (toLowerJS label)

/-- `findRow` of `parseBudget`: index of the first matching row (`none` for
the JS sentinel `-1`). -/
def findRow (rows : List (List String)) (label : String) : Option ℕ :=
  rows.findIdx? (labelMatches label)

/-- The house extraction of `parseBudget` for one `findRow` result
(src/data.js lines 192-202): columns F, H, J, K. -/
def houseAt (rows : List (List String)) (idx : Option ℕ) : List House :=
  match idx with
  | none => []
  | some i =>
    match rows[i]? with
    | none => []
    | some r =>
      [⟨jsTrim (r.getD 1 ""), parseNumber (r.getD 5 ""), parseNumber (r.getD 7 ""),
        parseNumber (r.getD 9 ""), parseNumber (r.getD 10 "")⟩]

/-- Column K of the row found for `label`, as used for every section total of
`parseBudget`; `none` when the label row is missing. -/
def totalFor (rows : List (List String)) (label : String) : Option ℚ :=
  (findRow rows label).map (fun i => parseNumber ((rows.getD i []).getD 10 ""))

/-- The per-label item extraction of `parseBudget` (src/data.js lines 218-226
and 235-243): name from column B with the label as fallback, amount from
column K. -/
def itemsFor (rows : List (List String)) (labels : List String) : List NamedAmount :=
  labels.filterMap (fun label =>
    (findRow rows label).bind (fun i =>
      (rows[i]?).map (fun r =>
        ⟨jsTrim (if r.getD 1 "" = "" then label else r.getD 1 ""),
         parseNumber (r.getD 10 "")⟩)))

/-- The soft-cost labels of `parseBudget` (src/data.js line 216). -/
def softLabels : List String :=
  ["Fee Administracion", "Arquitectura", "Trámites / Permisos", "Legal / Fiscal",
   "Ingenierías / Estudios", "IVA Soft Cost"]

/-- The terreno labels of `parseBudget` (src/data.js line 234). -/
def terrenoLabels : List String := ["Lote 1", "Lote 2", "ISAI"]

/-- `DataService.parseBudget` (src/data.js lines 171-250). -/
def parseBudget (rows : List (List String)) : BudgetData :=
  { houses := houseAt rows (findRow rows "Casa 1") ++ houseAt rows (findRow rows "Casa 2")
    hardCosts :=
      { total := totalFor rows "Total de Hard Cost"
        construction := totalFor rows "Construcción" }
    softCosts := { items := itemsFor rows softLabels, total := totalFor rows "Total de Soft Cost" }
    terreno := { items := itemsFor rows terrenoLabels, total := totalFor rows "Valor de Terreno" } }

/-- One allocation of `data.uses` in `parseCapital`. -/
structure UseOfCapital where
  amount : ℚ
  pct : ℚ
deriving DecidableEq

/-- An investor row of the CAPITAL sheet. -/
structure Investor where
  name : String
  amount : ℚ
deriving DecidableEq

/-- A value/label pair of the indicator sections of `parseCapital`; the two
keys are assigned together under one row-presence check. -/
structure Indicator where
  value : ℚ
  label : String
deriving DecidableEq

/-- `data.uses` of `parseCapital`. -/
structure CapitalUses where
  hardCosts : Option UseOfCapital
  softCosts : Option UseOfCapital
  terreno : Option UseOfCapital
deriving DecidableEq

/-- `data.projectIndicators` of `parseCapital`. -/
structure ProjectIndicators where
  totalIncome : Option Indicator
  projectCost : Option Indicator
  profit : Option Indicator
  margin : Option Indicator
deriving DecidableEq

/-- `data.capitalIndicators` of `parseCapital`. -/
structure CapitalIndicators where
  capitalContributed : Option Indicator
  totalReturn : Option Indicator
  roi : Option Indicator
  capitalMultiple : Option Indicator
deriving DecidableEq

/-- The structure returned by `parseCapital`. -/
structure CapitalData where
  uses : CapitalUses
  investors : List Investor
  projectIndicators : ProjectIndicators
  capitalIndicators : CapitalIndicators
deriving DecidableEq

/-- A uses-of-capital row of `parseCapital` (src/data.js lines 313-321):
amount from column C, percentage from column D. -/
def useAt (rows : List (List String)) (i : ℕ) : Option UseOfCapital :=
  (rows[i]?).map (fun r => ⟨parseNumber (r.getD 2 ""), parsePercent (r.getD 3 "")⟩)

/-- An indicator row of `parseCapital` (src/data.js lines 334-368): value from
column C through the given coercion, label from column A with a default. -/
def indicatorAt (coerce : String → ℚ) (rows : List (List String)) (i : ℕ)
    (defaultLabel : String) : Option Indicator :=
  (rows[i]?).map (fun r =>
    ⟨coerce (r.getD 2 ""),
     jsTrim (if r.getD 0 "" = "" then defaultLabel else r.getD 0 "")⟩)

/-- Worker for the investor loop of `parseCapital`: the loop counter bound
`i < 11` is carried as the structurally decreasing fuel `11 - i`, so that
fuel `0` is exactly `¬ i < 11`. -/
def investorGo (rows : List (List String)) : ℕ → ℕ → List Investor
  | _, 0 => []
  | i, fuel + 1 =>
    if h : i < rows.length then
      let r := rows[i]
      if jsTrim (r.getD 0 "") = "" then []
      else ⟨jsTrim (r.getD 0 ""), parseNumber (r.getD 2 "")⟩ ::
        investorGo rows (i + 1) fuel
    else []

/-- The investor loop of `parseCapital` (src/data.js lines 323-332):
`for (let i = 6; i < 11 && i < rows.length; i++)`, breaking at the first
blank name cell (column A), amount from column C. -/
def investorLoop (rows : List (List String)) (i : ℕ) : List Investor :=
  investorGo rows i (11 - i)

/-- `DataService.parseCapital` (src/data.js lines 304-371). -/
def parseCapital (rows : List (List String)) : CapitalData :=
  { uses := { hardCosts := useAt rows 1, softCosts := useAt rows 2, terreno := useAt rows 3 }
    investors := investorLoop rows 6
    projectIndicators :=
      { totalIncome := indicatorAt parseNumber rows 12 "Ingresos Totales"
        projectCost := indicatorAt parseNumber rows 13 "Costo del Proyecto"
        profit := indicatorAt parseNumber rows 14 "Utilidad"
        margin := indicatorAt parsePercent rows 15 "Margen de Utilidad" }
    capitalIndicators :=
      { capitalContributed := indicatorAt parseNumber rows 18 "Capital Aportado"
        totalReturn := indicatorAt parseNumber rows 19 "Retorno Total"
        roi := indicatorAt parsePercent rows 20 "ROI"
        capitalMultiple := indicatorAt parseNumber rows 21 "Múltiplo de Capital" } }

/-- The parsed snapshot stored in `DataService.cache` (src/data.js lines
147-152); `fetchedAt` models `new Date()` as the current clock value in
milliseconds. -/
structure ParsedData where
  budget : BudgetData
  expenses : List Expense
  capital : CapitalData
  fetchedAt : ℕ
deriving DecidableEq

/-- The three sheet URLs of a project configuration. -/
structure ProjectSheets where
  budget : String
  desglose : String
  capital : String
deriving DecidableEq

/-- A project configuration as passed to `fetchAllData`. -/
structure Project where
  key : String
  sheets : ProjectSheets
deriving DecidableEq

/-- The mutable state of `DataService`: `cache` (a string-keyed object) and
the single process-wide `cacheTimestamp` (src/data.js lines 7-8);
`none` models the initial `null`. -/
structure DataServiceState where
  cache : List (String × ParsedData)
  cacheTimestamp : Option ℕ
deriving DecidableEq

/-- The initial `DataService` state. -/
def initialState : DataServiceState := ⟨[], none⟩

/-- `DataService.CACHE_TTL` (src/data.js line 9): five minutes in ms. -/
def CACHE_TTL : ℕ := 5 * 60 * 1000

/-- JS object assignment `cache[key] = v`: overwrite the existing entry in
place or append the key. -/
def cacheSet (m : List (String × ParsedData)) (k : String) (v : ParsedData) :
    List (String × ParsedData) :=
  match m with
  | [] => [(k, v)]
  | (k0, v0) :: rest => if k0 = k then (k, v) :: rest else (k0, v0) :: cacheSet rest k v

/-- The cache-validity test of `fetchAllData` (src/data.js line 137):
`this.cache[project.key] && this.cacheTimestamp && (now - this.cacheTimestamp)
< this.CACHE_TTL`.  A timestamp of `0` is falsy in JS, hence the `ts != 0`
conjunct; `now < ts` cannot arise in a monotone trace, and then both the JS
negative difference and the truncated `Nat` difference pass the `< CACHE_TTL`
test, so truncated subtraction is faithful. -/
def cacheHit (st : DataServiceState) (key : String) (now : ℕ) : Bool :=
  (st.cache.lookup key).isSome &&
    (match st.cacheTimestamp with
     | some ts => ts != 0 && decide (now - ts < CACHE_TTL)
     | none => false)

/-- `Promise.all` over the three sheet fetches: the first failure (in argument
order, standing for the first rejection) aborts the whole; otherwise all three
results are returned. -/
def promiseAll3 (a b c : Except String (List (List String))) :
    Except String (List (List String) × List (List String) × List (List String)) :=
  match a with
  | .error m => .error m
  | .ok x =>
    match b with
    | .error m => .error m
    | .ok y =>
      match c with
      | .error m => .error m
      | .ok z => .ok (x, y, z)

/-- `DataService.fetchCSV` (src/data.js lines 124-129), with the host fetch
abstracted as `network : url → body or failure`; a non-2xx response and a
transport error are both the thrown/rejected case (`Except.error` with the
underlying message). -/
def fetchCSV (network : String → Except String String) (url : String) :
    Except String (List (List String)) :=
  (network url).map parseCSV

instance {ε α : Type} [DecidableEq ε] [DecidableEq α] : DecidableEq (Except ε α) := fun
  | .error x, .error y =>
    if h : x = y then isTrue (by subst h; rfl)
    else isFalse (fun hh => h (by injection hh))
  | .error _, .ok _ => isFalse (fun hh => by injection hh)
  | .ok _, .error _ => isFalse (fun hh => by injection hh)
  | .ok x, .ok y =>
    if h : x = y then isTrue (by subst h; rfl)
    else isFalse (fun hh => h (by injection hh))

/-- The observable outcome of one `fetchAllData` call: the returned (or
thrown) value, the `DataService` state afterwards, and whether the three
network fetches were issued. -/
structure FetchOutcome where
  result : Except String ParsedData
  state : DataServiceState
  didFetch : Bool
deriving DecidableEq

/-- The cache-miss path of `fetchAllData` (src/data.js lines 141-156):
issue the three fetches, fail as a whole on any failure leaving the state
untouched, otherwise parse, store under the project key and set the shared
timestamp. -/
def fetchFresh (network : String → Except String String)
    (gen : String → Option LocalDate) (st : DataServiceState)
    (project : Project) (now : ℕ) : FetchOutcome :=
  match promiseAll3 (fetchCSV network project.sheets.budget)
      (fetchCSV network project.sheets.desglose)
      (fetchCSV network project.sheets.capital) with
  | .error m => ⟨.error m, st, true⟩
  | .ok (b, d, c) =>
    let parsed : ParsedData := ⟨parseBudget b, parseExpenses gen d, parseCapital c, now⟩
    ⟨.ok parsed, ⟨cacheSet st.cache project.key parsed, some now⟩, true⟩

/-- `DataService.fetchAllData` (src/data.js lines 135-157). -/
def fetchAllData (network : String → Except String String)
    (gen : String → Option LocalDate) (st : DataServiceState)
    (project : Project) (now : ℕ) : FetchOutcome :=
  if cacheHit st project.key now then
    match st.cache.lookup project.key with
    | some cached => ⟨.ok cached, st, false⟩
    | none => fetchFresh network gen st project now
  else fetchFresh network gen st project now

/-- `DataService.clearCache` (src/data.js lines 162-165). -/
def clearCache (_st : DataServiceState) : DataServiceState := ⟨[], none⟩

/-- The always-failing stand-in for the host generic date parser, used at
concrete inputs. -/
def noGeneric : String → Option LocalDate := fun _ => none

/-- A network answering every URL with an empty body. -/
def okNet : String → Except String String := fun _ => .ok ""

/-- A network failing the budget URL of project `A` with an HTTP error. -/
def badNet : String → Except String String :=
  fun url => if url = "uA1" then .error "HTTP 404: Not Found" else .ok ""

/-- Concrete project configuration `A` for exercising the cache at concrete
inputs. -/
def projA : Project := ⟨"A", ⟨"uA1", "uA2", "uA3"⟩⟩

/-- Concrete project configuration `B` (distinct key and URLs). -/
def projB : Project := ⟨"B", ⟨"uB1", "uB2", "uB3"⟩⟩

/-- A stub snapshot for exercising the cache path at concrete inputs. -/
def pdStub : ParsedData :=
  ⟨parseBudget [], parseExpenses noGeneric [], parseCapital [], 1⟩

/-- A CAPITAL sheet with six consecutive non-blank investor rows at indices
6 through 11. -/
def capRowsSix : List (List String) :=
  [[], [], [], [], [], [],
   ["Inv1", "", "10"], ["Inv2", "", "10"], ["Inv3", "", "10"],
   ["Inv4", "", "10"], ["Inv5", "", "10"], ["Inv6", "", "10"]]

/-- The emission rule for one data row as the amended C6 states it: a row
with at least five cells is kept exactly when it has a non-empty category or
a nonzero parsed amount (amount defaulting to 0 on parse failure); a shorter
row is always discarded. -/
def specExpenseOfRow (gen : String → Option LocalDate) (row : List String) :
    Option Expense :=
  if row.length < 5 then none
  else
    let dateStr := jsTrim (row.getD 0 "")
    let category := jsTrim (row.getD 1 "")
    let amount := parseNumber (row.getD 4 "")
    if category = "" ∧ amount = 0 then none
    else some ⟨dateStr, parseDate gen dateStr, category, jsTrim (row.getD 2 ""), amount⟩

lemma csvLoop_open_quote (cs : List Char) (field : List Char)
    (row : List (List Char)) (rows : List (List (List Char))) :
    csvLoop ('"' :: cs) false field row rows = csvLoop cs true field row rows := by
  rw [csvLoop.eq_def]
  rcases cs with _ | ⟨c2, cs⟩ <;> simp_all

lemma csvLoop_cons_inQuotes (c : Char) (h : c ≠ '"') (cs : List Char)
    (field : List Char) (row : List (List Char)) (rows : List (List (List Char))) :
    csvLoop (c :: cs) true field row rows = csvLoop cs true (field ++ [c]) row rows := by
  rw [csvLoop.eq_def]
  rcases cs with _ | ⟨c2, cs⟩ <;> simp_all

lemma csvLoop_append_inQuotes (f : List Char) (h : '"' ∉ f) :
    ∀ (rest : List Char) (field : List Char) (row : List (List Char))
      (rows : List (List (List Char))),
      csvLoop (f ++ rest) true field row rows = csvLoop rest true (field ++ f) row rows := by
  induction f with
  | nil => intro rest field row rows; simp
  | cons c f ih =>
    intro rest field row rows
    have hc : c ≠ '"' := fun hh => h (hh ▸ List.mem_cons_self c f)
    have hf : '"' ∉ f := fun hh => h (List.mem_cons_of_mem c hh)
    rw [List.cons_append, csvLoop_cons_inQuotes c hc, ih hf]
    simp

lemma csvLoop_close_end (field : List Char) (row : List (List Char))
    (rows : List (List (List Char))) :
    csvLoop ['"'] true field row rows = csvLoop [] false field row rows := rfl

lemma csvLoop_nil_ne (field : List Char) (hf : field ≠ [])
    (row : List (List Char)) (rows : List (List (List Char))) (b : Bool) :
    csvLoop [] b field row rows = rows ++ [row ++ [trimChars field]] := by
  rw [csvLoop.eq_def]
  simp [hf]

/-- C1: `parseCSV` handles quoted fields: any quoted field whose content has
no quote character — so the content may contain commas and newlines — parses
to exactly that (trimmed) content as a single field of a single row, and the
concrete row `"hello, ""world"""` (a comma and a doubled quote inside one
quoted field) yields exactly one field with the literal comma and an
unescaped quote character. -/
theorem parseCSV_quoted_fields :
    (∀ f : List Char, '"' ∉ f → f ≠ [] →
      parseCSV ⟨'"' :: (f ++ ['"'])⟩ = [[⟨trimChars f⟩]]) ∧
    parseCSV "\"hello, \"\"world\"\"\"" = [["hello, \"world\""]] := by
  constructor
  · intro f hq hf
    have h1 : csvLoop ('"' :: (f ++ ['"'])) false [] [] [] = [[trimChars f]] := by
      rw [csvLoop_open_quote, csvLoop_append_inQuotes f hq, List.nil_append,
        csvLoop_close_end, csvLoop_nil_ne f hf]
      simp
    simp [parseCSV, h1]
  · decide

/-- Witness for C1: the general clause at the concrete quoted field content
`a,\nb` (comma and embedded newline). -/
theorem parseCSV_quoted_fields_witness :
    parseCSV ⟨['"', 'a', ',', '\n', 'b', '"']⟩ = [[⟨trimChars ['a', ',', '\n', 'b']⟩]] :=
  parseCSV_quoted_fields.1 ['a', ',', '\n', 'b'] (by decide) (by decide)

/-- C8: the parse layer is total and degrades to defaults: an unterminated
quote still emits the accumulated field at end-of-input (general clause plus
the concrete `"abc`), unparsable numbers/percents give `0`, an empty date
string gives no date, and each sheet parser on an empty or short-row sheet
gives its all-default structure rather than failing. -/
theorem parsers_degrade_to_defaults :
    (∀ f : List Char, '"' ∉ f → f ≠ [] →
      parseCSV ⟨'"' :: f⟩ = [[⟨trimChars f⟩]]) ∧
    parseCSV "\"abc" = [["abc"]] ∧
    parseNumber "garbage" = 0 ∧
    parsePercent "x%" = 0 ∧
    (∀ gen : String → Option LocalDate, parseDate gen "" = none) ∧
    parseBudget [] = ⟨[], ⟨none, none⟩, ⟨[], none⟩, ⟨[], none⟩⟩ ∧
    parseExpenses noGeneric [] = [] ∧
    parseExpenses noGeneric [["h1", "h2", "h3", "h4", "h5"], ["x"]] = [] ∧
    parseCapital [] =
      ⟨⟨none, none, none⟩, [], ⟨none, none, none, none⟩, ⟨none, none, none, none⟩⟩ := by
  refine ⟨?_, by decide, by decide, by decide, ?_, by decide, by decide, by decide, by decide⟩
  · intro f hq hf
    have h2 : csvLoop f true [] [] [] = csvLoop [] true f [] [] := by
      have h3 := csvLoop_append_inQuotes f hq [] [] [] []
      rwa [List.append_nil, List.nil_append] at h3
    have h1 : csvLoop ('"' :: f) false [] [] [] = [[trimChars f]] := by
      rw [csvLoop_open_quote, h2, csvLoop_nil_ne f hf]
      simp
    simp [parseCSV, h1]
  · intro gen; rfl

/-- Witness for C8: the unterminated-quote clause at the concrete input
`"xy`. -/
theorem parsers_degrade_to_defaults_witness :
    parseCSV ⟨['"', 'x', 'y']⟩ = [[⟨trimChars ['x', 'y']⟩]] :=
  parsers_degrade_to_defaults.1 ['x', 'y'] (by decide) (by decide)

/-- C2: `parseNumber` strips currency symbol, whitespace, thousands
separators and the currency-code letters and parses the rest as a decimal:
`$1,234.56 MXN` gives 1234.56, a lone `-` and the empty string give 0, a
non-numeric remainder gives 0; `parsePercent` strips `%` and whitespace:
`27.5%` gives 27.5 and unparsable input gives 0. -/
theorem parseNumber_parsePercent_spec :
    parseNumber "$1,234.56 MXN" = 1234.56 ∧ parseNumber "-" = 0 ∧
    parseNumber "" = 0 ∧ parseNumber "$abc" = 0 ∧
    parsePercent "27.5%" = 27.5 ∧ parsePercent "abc" = 0 := by
  decide

lemma expenseStep_total (s : ExpenseSummary) (e : Expense) :
    (expenseStep s e).total = s.total + e.amount := rfl

lemma expenseStep_byCategory (s : ExpenseSummary) (e : Expense) :
    (expenseStep s e).byCategory =
      bump s.byCategory (normalizeCategory e.category) e.amount := rfl

lemma expenseStep_bySubcategory (s : ExpenseSummary) (e : Expense) :
    (expenseStep s e).bySubcategory =
      bump s.bySubcategory (normalizeCategory e.category ++ "|" ++ e.subcategory)
        e.amount := rfl

lemma lookupD_bump_self (m : QMap) (k : String) (v : ℚ) :
    lookupD (bump m k v) k = lookupD m k + v := by
  induction m with
  | nil => simp [bump, lookupD]
  | cons p rest ih =>
    obtain ⟨k0, v0⟩ := p
    by_cases h : k0 = k
    · subst h; simp [bump, lookupD]
    · simp [bump, lookupD, h, ih]

lemma lookupD_bump_ne (m : QMap) (k k2 : String) (v : ℚ) (h : k ≠ k2) :
    lookupD (bump m k v) k2 = lookupD m k2 := by
  induction m with
  | nil => simp [bump, lookupD, h]
  | cons p rest ih =>
    obtain ⟨k0, v0⟩ := p
    by_cases h0 : k0 = k
    · subst h0; simp [bump, lookupD, h, ih]
    · simp [bump, lookupD, h0, ih]

lemma bump_values_sum (m : QMap) (k : String) (v : ℚ) :
    ((bump m k v).map Prod.snd).sum = (m.map Prod.snd).sum + v := by
  induction m with
  | nil => simp [bump]
  | cons p rest ih =>
    obtain ⟨k0, v0⟩ := p
    by_cases h : k0 = k
    · subst h; simp [bump]; ring
    · simp [bump, h, ih]; ring

lemma foldl_expenseStep_total (es : List Expense) :
    ∀ s : ExpenseSummary,
      (es.foldl expenseStep s).total = s.total + (es.map Expense.amount).sum := by
  induction es with
  | nil => intro s; simp
  | cons e rest ih =>
    intro s
    rw [List.foldl_cons, ih, expenseStep_total]
    simp [add_assoc]

lemma foldl_expenseStep_byCategory (k : String) (es : List Expense) :
    ∀ s : ExpenseSummary,
      lookupD (es.foldl expenseStep s).byCategory k =
        lookupD s.byCategory k +
          ((es.filter fun e => normalizeCategory e.category == k).map
            Expense.amount).sum := by
  induction es with
  | nil => intro s; simp
  | cons e rest ih =>
    intro s
    rw [List.foldl_cons, ih, expenseStep_byCategory]
    by_cases h : normalizeCategory e.category = k
    · rw [h, lookupD_bump_self]
      simp [List.filter_cons, h, add_assoc]
    · rw [lookupD_bump_ne _ _ _ _ h]
      simp [List.filter_cons, h]

lemma foldl_expenseStep_bySubcategory (k : String) (es : List Expense) :
    ∀ s : ExpenseSummary,
      lookupD (es.foldl expenseStep s).bySubcategory k =
        lookupD s.bySubcategory k +
          ((es.filter fun e =>
              (normalizeCategory e.category ++ "|" ++ e.subcategory) == k).map
            Expense.amount).sum := by
  induction es with
  | nil => intro s; simp
  | cons e rest ih =>
    intro s
    rw [List.foldl_cons, ih, expenseStep_bySubcategory]
    by_cases h : normalizeCategory e.category ++ "|" ++ e.subcategory = k
    · rw [h, lookupD_bump_self]
      simp [List.filter_cons, h, add_assoc]
    · rw [lookupD_bump_ne _ _ _ _ h]
      simp [List.filter_cons, h]

lemma foldl_expenseStep_catValues (es : List Expense) :
    ∀ s : ExpenseSummary,
      (((es.foldl expenseStep s).byCategory).map Prod.snd).sum =
        (s.byCategory.map Prod.snd).sum + (es.map Expense.amount).sum := by
  induction es with
  | nil => intro s; simp
  | cons e rest ih =>
    intro s
    rw [List.foldl_cons, ih, expenseStep_byCategory, bump_values_sum]
    simp [add_assoc]

lemma foldl_expenseStep_subValues (es : List Expense) :
    ∀ s : ExpenseSummary,
      (((es.foldl expenseStep s).bySubcategory).map Prod.snd).sum =
        (s.bySubcategory.map Prod.snd).sum + (es.map Expense.amount).sum := by
  induction es with
  | nil => intro s; simp
  | cons e rest ih =>
    intro s
    rw [List.foldl_cons, ih, expenseStep_bySubcategory, bump_values_sum]
    simp [add_assoc]

/-- C3: `calculateExpenseSummary` computes the running total of all amounts;
`byCategory` at a normalized key equals the sum of the amounts of exactly the
expenses normalizing to it (so a never-seen key reads as 0); `bySubcategory`
at a composite `category|subcategory` key likewise; the observable result
(total and every key lookup) is invariant under reordering of the records;
and `Hard Costs`/`hard cost` merge into `Hard Cost` with 100 + 50 = 150. -/
theorem calculateExpenseSummary_spec :
    (∀ es : List Expense,
      (calculateExpenseSummary es).total = (es.map Expense.amount).sum) ∧
    (∀ (es : List Expense) (k : String),
      lookupD (calculateExpenseSummary es).byCategory k =
        ((es.filter fun e => normalizeCategory e.category == k).map
          Expense.amount).sum) ∧
    (∀ (es : List Expense) (k : String),
      lookupD (calculateExpenseSummary es).bySubcategory k =
        ((es.filter fun e =>
            (normalizeCategory e.category ++ "|" ++ e.subcategory) == k).map
          Expense.amount).sum) ∧
    (∀ es es2 : List Expense, es.Perm es2 →
      (calculateExpenseSummary es).total = (calculateExpenseSummary es2).total ∧
      (∀ k, lookupD (calculateExpenseSummary es).byCategory k =
        lookupD (calculateExpenseSummary es2).byCategory k) ∧
      (∀ k, lookupD (calculateExpenseSummary es).bySubcategory k =
        lookupD (calculateExpenseSummary es2).bySubcategory k)) ∧
    lookupD (calculateExpenseSummary
      [⟨"", none, "Hard Costs", "", 100⟩, ⟨"", none, "hard cost", "", 50⟩]).byCategory
      "Hard Cost" = 150 := by
  have htot : ∀ es : List Expense,
      (calculateExpenseSummary es).total = (es.map Expense.amount).sum := by
    intro es
    rw [calculateExpenseSummary, foldl_expenseStep_total]
    simp
  have hcat : ∀ (es : List Expense) (k : String),
      lookupD (calculateExpenseSummary es).byCategory k =
        ((es.filter fun e => normalizeCategory e.category == k).map
          Expense.amount).sum := by
    intro es k
    rw [calculateExpenseSummary, foldl_expenseStep_byCategory]
    simp [lookupD]
  have hsub : ∀ (es : List Expense) (k : String),
      lookupD (calculateExpenseSummary es).bySubcategory k =
        ((es.filter fun e =>
            (normalizeCategory e.category ++ "|" ++ e.subcategory) == k).map
          Expense.amount).sum := by
    intro es k
    rw [calculateExpenseSummary, foldl_expenseStep_bySubcategory]
    simp [lookupD]
  refine ⟨htot, hcat, hsub, ?_, by decide⟩
  intro es es2 h
  refine ⟨?_, fun k => ?_, fun k => ?_⟩
  · rw [htot es, htot es2]
    exact (h.map Expense.amount).sum_eq
  · rw [hcat es k, hcat es2 k]
    exact ((h.filter _).map Expense.amount).sum_eq
  · rw [hsub es k, hsub es2 k]
    exact ((h.filter _).map Expense.amount).sum_eq

/-- Witness for C3: the order-independence clause at a concrete two-record
list and its transposition. -/
theorem calculateExpenseSummary_spec_witness :
    (calculateExpenseSummary
      [⟨"", none, "Hard Costs", "s", 100⟩, ⟨"", none, "Terreno", "t", 50⟩]).total =
    (calculateExpenseSummary
      [⟨"", none, "Terreno", "t", 50⟩, ⟨"", none, "Hard Costs", "s", 100⟩]).total :=
  (calculateExpenseSummary_spec.2.2.2.1
    [⟨"", none, "Hard Costs", "s", 100⟩, ⟨"", none, "Terreno", "t", 50⟩]
    [⟨"", none, "Terreno", "t", 50⟩, ⟨"", none, "Hard Costs", "s", 100⟩]
    (List.Perm.swap _ _ _)).1

/-- C10: the total returned by `calculateExpenseSummary` equals the sum of
all values stored in `byCategory` and also the sum of all values stored in
`bySubcategory`: every amount is attributed to exactly one category key and
exactly one composite subcategory key. -/
theorem calculateExpenseSummary_total_partition :
    ∀ es : List Expense,
      (calculateExpenseSummary es).total =
        (((calculateExpenseSummary es).byCategory).map Prod.snd).sum ∧
      (calculateExpenseSummary es).total =
        (((calculateExpenseSummary es).bySubcategory).map Prod.snd).sum := by
  intro es
  constructor
  · rw [calculateExpenseSummary, foldl_expenseStep_total, foldl_expenseStep_catValues]
    simp
  · rw [calculateExpenseSummary, foldl_expenseStep_total, foldl_expenseStep_subValues]
    simp

/-- C5: `parseDate` on `3/4/2024` builds the local date 2024-03-04 (month
index 2) regardless of the host parser; on any non-empty string not of the
slash shape it returns exactly what generic date parsing returns; and when
the generic parse also fails the result is no date, never an error:
`not-a-date` gives `none`. -/
theorem parseDate_spec :
    (∀ gen : String → Option LocalDate,
      parseDate gen "3/4/2024" = some ⟨2024, 2, 4⟩) ∧
    (∀ (gen : String → Option LocalDate) (s : String),
      s ≠ "" → slashDateParts s = none → parseDate gen s = gen s) ∧
    (∀ gen : String → Option LocalDate,
      gen "not-a-date" = none → parseDate gen "not-a-date" = none) := by
  have hfall : ∀ (gen : String → Option LocalDate) (s : String), s ≠ "" →
      slashDateParts s = none → parseDate gen s = gen s := by
    intro gen s hs hp
    rw [parseDate, if_neg hs, hp]
  refine ⟨fun gen => rfl, hfall, fun gen h => ?_⟩
  rw [hfall gen "not-a-date" (by decide) (by decide), h]

/-- Witness for C5: both concrete dates with the always-failing generic
parser. -/
theorem parseDate_spec_witness :
    parseDate noGeneric "3/4/2024" = some ⟨2024, 2, 4⟩ ∧
    parseDate noGeneric "not-a-date" = none :=
  ⟨parseDate_spec.1 noGeneric, parseDate_spec.2.2 noGeneric rfl⟩

/-- Counterexample to C6 as stated: a data row carrying the non-empty
category `Hard Cost` but only two cells is discarded by `parseExpenses`,
although the claim requires every row with a non-empty category to emit a
record. -/
theorem parseExpenses_short_row_counterexample :
    jsTrim "Hard Cost" ≠ "" ∧
    parseExpenses noGeneric
      [["Fecha", "Categoria", "Subcategoria", "Detalle", "Monto"],
       ["1/1/2024", "Hard Cost"]] = [] := by
  decide

/-- C6 amended: after the header row, `parseExpenses` emits exactly the rows
with at least five cells having a non-empty category or a nonzero parsed
amount (amount defaulting to 0 when its cell fails to parse); rows with fewer
than five cells are discarded even when they carry a category. -/
theorem parseExpenses_emission_spec :
    ∀ (gen : String → Option LocalDate) (rows : List (List String)),
      parseExpenses gen rows = (rows.drop 1).filterMap (specExpenseOfRow gen) := by
  intro gen rows
  rw [parseExpenses]
  induction rows.drop 1 with
  | nil => rfl
  | cons row rest ih =>
    by_cases h5 : row.length < 5
    · simp [expensesLoop, specExpenseOfRow, h5, ih]
    · by_cases hzero :
        jsTrim (row[1]?.getD "") = "" ∧ parseNumber (row[4]?.getD "") = 0
      · simp [expensesLoop, specExpenseOfRow, h5, hzero, ih]
      · simp [expensesLoop, specExpenseOfRow, h5, hzero, ih]

lemma investorGo_take_takeWhile (rows : List (List String)) :
    ∀ (fuel i : ℕ),
      investorGo rows i fuel =
        (((rows.drop i).take fuel).takeWhile
            (fun r => !(jsTrim (r.getD 0 "") == ""))).map
          (fun r => ⟨jsTrim (r.getD 0 ""), parseNumber (r.getD 2 "")⟩) := by
  intro fuel
  induction fuel with
  | zero => intro i; simp [investorGo]
  | succ fuel ih =>
    intro i
    by_cases hlen : i < rows.length
    · have hdrop : rows.drop i = rows[i] :: rows.drop (i + 1) :=
        List.drop_eq_getElem_cons hlen
      rw [investorGo, dif_pos hlen, hdrop, List.take_succ_cons, List.takeWhile_cons]
      simp only [List.getD]
      by_cases hblank : jsTrim ((rows[i].get? 0).getD "") = ""
      · rw [if_pos hblank, hblank]
        rfl
      · rw [if_neg hblank, ih (i + 1)]
        have hb : (!(jsTrim ((rows[i].get? 0).getD "") == "")) = true := by
          simpa using hblank
        rw [hb]
        rfl
    · have hnil : rows.drop i = [] := List.drop_eq_nil_of_le (by omega)
      rw [investorGo, dif_neg hlen, hnil]
      rfl

/-- Counterexample to C9 as stated: with non-blank name cells at every index
6 through 11 (so no blank name cell terminates the run), the investor row at
index 11 is missing from the result — the loop stops at the section cap
`i < 11`, so at most five investors (indices 6-10) are read. -/
theorem parseCapital_investor_cap_counterexample :
    (((List.range 12).drop 6).all
      (fun i => !(jsTrim ((capRowsSix.getD i []).getD 0 "") == ""))) = true ∧
    (parseCapital capRowsSix).investors.length = 5 ∧
    "Inv6" ∉ (parseCapital capRowsSix).investors.map Investor.name := by
  decide

/-- C9 amended: `parseCapital` reads investors by fixed offset from row index
6, taking at most five consecutive rows (the loop cap `i < 11`), terminated
early by the first blank name cell; each kept row contributes the trimmed
column-A name and the column-C parsed amount, in order. -/
theorem parseCapital_investors_spec :
    ∀ rows : List (List String),
      (parseCapital rows).investors =
        (((rows.drop 6).take 5).takeWhile
            (fun r => !(jsTrim (r.getD 0 "") == ""))).map
          (fun r => ⟨jsTrim (r.getD 0 ""), parseNumber (r.getD 2 "")⟩) := by
  intro rows
  show investorGo rows 6 (11 - 6) = _
  exact investorGo_take_takeWhile rows (11 - 6) 6

lemma fetchAllData_miss (net : String → Except String String)
    (gen : String → Option LocalDate) (st : DataServiceState) (p : Project)
    (now : ℕ) (h : cacheHit st p.key now = false) :
    fetchAllData net gen st p now = fetchFresh net gen st p now := by
  rw [fetchAllData]
  simp [h]

lemma fetchFresh_didFetch (net : String → Except String String)
    (gen : String → Option LocalDate) (st : DataServiceState) (p : Project)
    (now : ℕ) : (fetchFresh net gen st p now).didFetch = true := by
  rw [fetchFresh]
  split <;> rfl

/-- Counterexample to C4 as stated: `cacheTimestamp` is shared across project
keys, not per key.  Key `A` is fetched at t = 1 ms and key `B` at
t = 400001 ms (a fresh fetch resetting the shared timestamp); at
t = 450001 ms — 450000 ms after the last successful fetch of key `A`, far past
the 5-minute window — the call for `A` performs no fetch and returns the
stale snapshot taken at t = 1, where the claim requires a fresh fetch. -/
theorem fetchAllData_per_key_window_counterexample :
    CACHE_TTL ≤ 450001 - 1 ∧
    (fetchAllData okNet noGeneric
      (fetchAllData okNet noGeneric
        (fetchAllData okNet noGeneric initialState projA 1).state projB 400001).state
      projA 450001).didFetch = false ∧
    (fetchAllData okNet noGeneric
      (fetchAllData okNet noGeneric
        (fetchAllData okNet noGeneric initialState projA 1).state projB 400001).state
      projA 450001).result =
    (fetchAllData okNet noGeneric initialState projA 1).result := by
  decide

/-- C4 amended: the 5-minute validity window is measured from the single
process-wide `cacheTimestamp` — the moment of the last successful fetch for
ANY project key — not from the last fetch of the given key itself.  Within that
shared window, a call whose key is cached returns the identical cached
snapshot with no network fetch and unchanged state; once the shared window
has elapsed, the next call performs a fresh fetch; and after `clearCache`
a call always performs a fresh fetch, regardless of the window. -/
theorem fetchAllData_cache_spec :
    (∀ (net : String → Except String String) (gen : String → Option LocalDate)
       (st : DataServiceState) (p : Project) (now : ℕ)
       (cached : ParsedData) (ts : ℕ),
      st.cache.lookup p.key = some cached → st.cacheTimestamp = some ts →
      ts ≠ 0 → now - ts < CACHE_TTL →
      fetchAllData net gen st p now = ⟨.ok cached, st, false⟩) ∧
    (∀ (net : String → Except String String) (gen : String → Option LocalDate)
       (st : DataServiceState) (p : Project) (now ts : ℕ),
      st.cacheTimestamp = some ts → CACHE_TTL ≤ now - ts →
      (fetchAllData net gen st p now).didFetch = true) ∧
    (∀ (net : String → Except String String) (gen : String → Option LocalDate)
       (st : DataServiceState) (p : Project) (now : ℕ),
      (fetchAllData net gen (clearCache st) p now).didFetch = true) := by
  refine ⟨?_, ?_, ?_⟩
  · intro net gen st p now cached ts h1 h2 h3 h4
    have hhit : cacheHit st p.key now = true := by
      rw [cacheHit, h1, h2]
      simp [h3, h4]
    rw [fetchAllData]
    simp [hhit, h1]
  · intro net gen st p now ts h1 h2
    have hmiss : cacheHit st p.key now = false := by
      rw [cacheHit, h1]
      simp [Nat.not_lt.mpr h2]
    rw [fetchAllData_miss net gen st p now hmiss]
    exact fetchFresh_didFetch net gen st p now
  · intro net gen st p now
    have hmiss : cacheHit (clearCache st) p.key now = false := rfl
    rw [fetchAllData_miss net gen (clearCache st) p now hmiss]
    exact fetchFresh_didFetch net gen (clearCache st) p now

/-- Witness for the amended C4: a cached key inside the shared window is
served from the cache with no fetch and unchanged state. -/
theorem fetchAllData_cache_spec_witness :
    fetchAllData okNet noGeneric ⟨[("A", pdStub)], some 10⟩ projA 20 =
      ⟨.ok pdStub, ⟨[("A", pdStub)], some 10⟩, false⟩ :=
  fetchAllData_cache_spec.1 okNet noGeneric ⟨[("A", pdStub)], some 10⟩ projA 20 pdStub 10
    (by decide) rfl (by decide) (by decide)

/-- C7: on a cache miss, failure of any of the three concurrent fetches makes
`fetchAllData` fail as a whole with one of the underlying failure messages,
returning no partial data, and leaves the cache and the cache timestamp
unchanged. -/
theorem fetchAllData_failure_spec :
    ∀ (net : String → Except String String) (gen : String → Option LocalDate)
      (st : DataServiceState) (p : Project) (now : ℕ),
      cacheHit st p.key now = false →
      (∃ m, fetchCSV net p.sheets.budget = .error m ∨
            fetchCSV net p.sheets.desglose = .error m ∨
            fetchCSV net p.sheets.capital = .error m) →
      (fetchAllData net gen st p now).state = st ∧
      (fetchAllData net gen st p now).didFetch = true ∧
      ∃ m2, (fetchAllData net gen st p now).result = .error m2 ∧
        (fetchCSV net p.sheets.budget = .error m2 ∨
         fetchCSV net p.sheets.desglose = .error m2 ∨
         fetchCSV net p.sheets.capital = .error m2) := by
  intro net gen st p now hmiss hfail
  rw [fetchAllData_miss net gen st p now hmiss, fetchFresh]
  rcases hb : fetchCSV net p.sheets.budget with mb | b
  · exact ⟨rfl, rfl, mb, rfl, Or.inl rfl⟩
  · rcases hd : fetchCSV net p.sheets.desglose with md | d
    · exact ⟨rfl, rfl, md, rfl, Or.inr (Or.inl rfl)⟩
    · rcases hc : fetchCSV net p.sheets.capital with mc | c
      · exact ⟨rfl, rfl, mc, rfl, Or.inr (Or.inr rfl)⟩
      · rcases hfail with ⟨m, hm | hm | hm⟩ <;> simp_all

/-- Witness for C7: a network failing the budget URL of project `A` at the
initial state. -/
theorem fetchAllData_failure_spec_witness :
    (fetchAllData badNet noGeneric initialState projA 5).state = initialState ∧
    (fetchAllData badNet noGeneric initialState projA 5).didFetch = true ∧
    ∃ m2, (fetchAllData badNet noGeneric initialState projA 5).result = .error m2 ∧
      (fetchCSV badNet projA.sheets.budget = .error m2 ∨
       fetchCSV badNet projA.sheets.desglose = .error m2 ∨
       fetchCSV badNet projA.sheets.capital = .error m2) :=
  fetchAllData_failure_spec badNet noGeneric initialState projA 5 (by decide)
    ⟨"HTTP 404: Not Found", Or.inl (by decide)⟩
